import Mathlib

/-!
Verification of the GPGMeWrapper core of kate-gpg-plugin.

The embedding models `src/GPGMeWrapper.cpp` / `src/GPGMeWrapper.hpp`:
key listing and registry loading, key resolution, and the decrypt/encrypt
orchestration, over an abstract `Backend` standing for the GpgME++ engine
(contexts, key store, cipher operations).  QStrings are modelled as lists
of Unicode scalar values; `QString::size()` counts UTF-16 code units and
`QString::toUtf8()` produces the UTF-8 byte sequence, both modelled
explicitly because the source mixes the two at the buffer boundary.
-/

set_option maxRecDepth 4000

namespace KateGPG

/-- A `QString`: a sequence of Unicode scalar values. -/
abbrev QStr := List Char

/-- Build a `QStr` from a Lean string literal. -/
def strq (s : String) : QStr := s.toList

/-- Number of UTF-16 code units of one scalar value; `QString::size()` sums these. -/
def unitLen (c : Char) : Nat := if c.toNat < 65536 then 1 else 2

/-- `QString::size()`: the UTF-16 code-unit count of the string. -/
def qsize (s : QStr) : Nat := (s.map unitLen).sum

/-- UTF-8 byte sequence of one scalar value. -/
def utf8Char (c : Char) : List Nat :=
  let n := c.toNat
  if n < 128 then [n]
  else if n < 2048 then [192 + n / 64, 128 + n % 64]
  else if n < 65536 then [224 + n / 4096, 128 + n / 64 % 64, 128 + n % 64]
  else [240 + n / 262144, 128 + n / 4096 % 64, 128 + n / 64 % 64, 128 + n % 64]

/-- `QString::toUtf8()`: the UTF-8 encoding of the whole string, as bytes. -/
def utf8Encode (s : QStr) : List Nat := (s.map utf8Char).flatten

/-- The byte buffer the wrapper hands to the backend:
`GpgME::Data(bar.constData(), length)` where `bar = inputString_.toUtf8()` but
`length = inputString_.size()` (lines 124/129 and 173/175 of GPGMeWrapper.cpp),
i.e. the first `qsize` bytes of the UTF-8 encoding. -/
def bufferOf (s : QStr) : List Nat := (utf8Encode s).take (qsize s)

/-- Fuel-driven UTF-8 decoder (the conversion performed by
`QString::fromStdString`, which interprets the bytes as UTF-8).  Malformed
sequences yield U+FFFD, as in Qt. -/
def utf8DecodeAux : Nat → List Nat → List Char
  | 0, _ => []
  | _ + 1, [] => []
  | fuel + 1, b :: rest =>
    if b < 128 then Char.ofNat b :: utf8DecodeAux fuel rest
    else if b < 224 then
      match rest with
      | [] => [Char.ofNat 65533]
      | b2 :: r2 => Char.ofNat ((b % 32) * 64 + b2 % 64) :: utf8DecodeAux fuel r2
    else if b < 240 then
      match rest with
      | b2 :: b3 :: r3 =>
          Char.ofNat (((b % 16) * 64 + b2 % 64) * 64 + b3 % 64) :: utf8DecodeAux fuel r3
      | _ => [Char.ofNat 65533]
    else
      match rest with
      | b2 :: b3 :: b4 :: r4 =>
          Char.ofNat ((((b % 8) * 64 + b2 % 64) * 64 + b3 % 64) * 64 + b4 % 64)
            :: utf8DecodeAux fuel r4
      | _ => [Char.ofNat 65533]

/-- `QString::fromStdString` applied to a backend output buffer. -/
def utf8Decode (l : List Nat) : QStr := utf8DecodeAux l.length l

/-- A backend key handle (`GpgME::Key`): the attributes the wrapper reads. -/
structure GKey where
  primaryFingerprint : QStr
  mailAddresses : List QStr
deriving DecidableEq

/-- The client-facing key snapshot (`GPGKeyDetails`): fingerprint plus the
mail-address list, with the source's `mailAdresses` spelling. -/
structure GPGKeyDetails where
  fingerprint : QStr
  mailAdresses : List QStr
deriving DecidableEq

/-- Modelled from the spec: the external KeyDetailsLoader
(`GPGKeyDetails::loadFromGPGMeKey`, whose implementation is not among these
sources) builds from one backend key an immutable KeyDetails value carrying
the key's fingerprint and its mail addresses. -/
def loadFromGPGMeKey (k : GKey) : GPGKeyDetails :=
  { fingerprint := k.primaryFingerprint, mailAdresses := k.mailAddresses }

/-- One response of the backend's key-listing stream (`ctx->nextKey(err)`):
either a key, or an error signal (`err.code() != 0`, covering both a real
error and end-of-results). -/
inductive NextResp where
  | key (k : GKey)
  | errSig
deriving DecidableEq

/-- The abstract GpgME++ backend: listing-start outcome and response stream
per search pattern, direct key lookup by fingerprint (`ctx->key`), and the
three cipher operations on byte buffers. Errors carry their
human-readable string. -/
structure Backend where
  startErr : QStr → Bool
  stream : QStr → List NextResp
  keyLookup : QStr → Except QStr GKey
  decryptOp : List Nat → Except QStr (List Nat)
  encryptOp : List GKey → List Nat → Except QStr (List Nat)
  symEncryptOp : List Nat → Except QStr (List Nat)

/-- The drain loop of `GPGMeWrapper::listKeys` (lines 61-67): keep collecting
keys until the backend signals an error, then return what was collected. -/
def drain : List NextResp → List GKey
  | [] => []
  | NextResp.errSig :: _ => []
  | NextResp.key k :: rest => k :: drain rest

/-- `GPGMeWrapper::listKeys` (lines 48-69): on a listing-start error return
the empty sequence, otherwise drain the stream. -/
def listKeys (b : Backend) (searchPattern : QStr) : List GKey :=
  if b.startErr searchPattern then [] else drain (b.stream searchPattern)

/-- `GPGMeWrapper::loadKeys` (lines 71-85), in state-passing form: the old
`m_keys` value goes in, the new one comes out.  The registry is cleared
first; an empty listing leaves it empty (the error-bearing local result is
discarded); otherwise one KeyDetails per listed key is appended in order. -/
def loadKeys (b : Backend) (searchPattern : QStr) (_oldKeys : List GPGKeyDetails) :
    List GPGKeyDetails :=
  let cleared : List GPGKeyDetails := []
  let keys := listKeys b searchPattern
  if keys.length = 0 then cleared
  else cleared ++ keys.map loadFromGPGMeKey

/-- `GPGMeWrapper::getNumKeys` (line 89). -/
def getNumKeys (m_keys : List GPGKeyDetails) : Nat := m_keys.length

/-- `QString::contains` needle test at the head: does `hay` start with `needle`? -/
def beginsWith : QStr → QStr → Bool
  | _, [] => true
  | [], _ :: _ => false
  | a :: as, b :: bs => if a = b then beginsWith as bs else false

/-- `QString::contains(needle)` (case-sensitive substring test). -/
def qcontains : QStr → QStr → Bool
  | [], needle => beginsWith [] needle
  | a :: t, needle => beginsWith (a :: t) needle || qcontains t needle

/-- The loop of `GPGMeWrapper::isPreferredKey` (lines 93-99): scan the
mail-address list, returning true at the first entry containing the address. -/
def anyContains : List QStr → QStr → Bool
  | [], _ => false
  | a :: rest, m => qcontains a m || anyContains rest m

/-- `GPGMeWrapper::isPreferredKey` (lines 91-100). -/
def isPreferredKey (d : GPGKeyDetails) (mailAddress : QStr) : Bool :=
  anyContains d.mailAdresses mailAddress

/-- `GPGOperationResult` (GPGMeWrapper.hpp lines 29-34). -/
structure GPGOperationResult where
  resultString : QStr
  keyFound : Bool
  decryptionSuccess : Bool
  errorMessage : QStr
deriving DecidableEq

/-- `GPGMeWrapper::decryptString` (lines 102-143): direct key lookup by
fingerprint; on lookup error return early with the prefixed backend error
string; otherwise decrypt the (truncated, see `bufferOf`) input buffer and
either record the error string or return the decoded output. -/
def decryptString (b : Backend) (inputString fingerprint : QStr) : GPGOperationResult :=
  match b.keyLookup fingerprint with
  | Except.error e =>
    { resultString := [], keyFound := false, decryptionSuccess := false,
      errorMessage := strq "Error finding key: " ++ e }
  | Except.ok _ =>
    match b.decryptOp (bufferOf inputString) with
    | Except.error e =>
      { resultString := [], keyFound := true, decryptionSuccess := false,
        errorMessage := e }
    | Except.ok bytes =>
      { resultString := utf8Decode bytes, keyFound := true, decryptionSuccess := true,
        errorMessage := [] }

/-- The fingerprint scan of `GPGMeWrapper::encryptString` (lines 155-162):
first listed key whose primary fingerprint equals the target, if any. -/
def findFirstMatch : List GKey → QStr → Option GKey
  | [], _ => none
  | k :: rest, fp => if k.primaryFingerprint = fp then some k else findFirstMatch rest fp

/-- The asymmetric tail of `encryptString` (lines 194-205): call the backend
encrypt with the selected recipient keys; `kf` is the `keyFound` value set by
the scan. -/
def encryptOutcome (b : Backend) (selectedKeys : List GKey) (inputString : QStr)
    (kf : Bool) : GPGOperationResult :=
  match b.encryptOp selectedKeys (bufferOf inputString) with
  | Except.ok cipher =>
    { resultString := utf8Decode cipher, keyFound := kf,
      decryptionSuccess := true, errorMessage := [] }
  | Except.error e =>
    { resultString := [], keyFound := kf, decryptionSuccess := false,
      errorMessage := strq "Encryption Failed: " ++ e }

/-- The symmetric branch of `encryptString` (lines 182-193).  Note the source
appends the failure text to `resultString`, not to `errorMessage` (line 190). -/
def symOutcome (b : Backend) (inputString : QStr) (kf : Bool) : GPGOperationResult :=
  match b.symEncryptOp (bufferOf inputString) with
  | Except.ok cipher =>
    { resultString := utf8Decode cipher, keyFound := kf,
      decryptionSuccess := true, errorMessage := [] }
  | Except.error e =>
    { resultString := strq "ERROR in syymetric encryption: " ++ e, keyFound := kf,
      decryptionSuccess := false, errorMessage := [] }

/-- `GPGMeWrapper::encryptString` (lines 145-206): the recipient listing and
fingerprint scan run unconditionally before the symmetric/asymmetric branch. -/
def encryptString (b : Backend) (inputString fingerprint recipientMail : QStr)
    (symmetricEncryption : Bool) : GPGOperationResult :=
  let keys := listKeys b recipientMail
  let matched := findFirstMatch keys fingerprint
  let selectedKeys : List GKey := match matched with
    | some k => [k]
    | none => []
  if symmetricEncryption then symOutcome b inputString matched.isSome
  else encryptOutcome b selectedKeys inputString matched.isSome

/-- Specification-side reading of the listing loop: the keys appearing
before the first error signal of the stream, in order. -/
def isKeyResp : NextResp → Bool
  | NextResp.key _ => true
  | NextResp.errSig => false

/-- Specification-side reading of the listing loop, continued. -/
def respKey : NextResp → Option GKey
  | NextResp.key k => some k
  | NextResp.errSig => none

/-- Specification-side description of `listKeys`: all keys collected before
the first error signal. -/
def keysBeforeError (rs : List NextResp) : List GKey :=
  (rs.takeWhile fun r => isKeyResp r).filterMap respKey

/-! Concrete backend instances used to evaluate the model on explicit inputs. -/

/-- A sample fingerprint. -/
def fpA : QStr := strq "AAAA1111"

/-- A sample key known to the sample backends. -/
def keyA : GKey := { primaryFingerprint := fpA, mailAddresses := [strq "alice@example.org"] }

/-- A second sample key. -/
def keyB : GKey := { primaryFingerprint := strq "BBBB2222", mailAddresses := [strq "bob@example.org"] }

/-- A backend holding `keyA` whose cipher operations are the identity on byte
buffers: it succeeds on everything and lets the wrapper's own byte handling
be observed unchanged. -/
def backendA : Backend :=
  { startErr := fun _ => false
    stream := fun _ => [NextResp.key keyA]
    keyLookup := fun fp => if fp = fpA then Except.ok keyA else Except.error (strq "No such key")
    decryptOp := fun bs => Except.ok bs
    encryptOp := fun _ bs => Except.ok bs
    symEncryptOp := fun bs => Except.ok bs }

/-- A backend whose direct key lookup always fails. -/
def backendB : Backend :=
  { startErr := fun _ => false
    stream := fun _ => []
    keyLookup := fun _ => Except.error (strq "No secret key")
    decryptOp := fun bs => Except.ok bs
    encryptOp := fun _ bs => Except.ok bs
    symEncryptOp := fun bs => Except.ok bs }

/-- A backend with an empty key store whose symmetric encryption fails. -/
def backendC : Backend :=
  { startErr := fun _ => false
    stream := fun _ => []
    keyLookup := fun _ => Except.error (strq "No such key")
    decryptOp := fun bs => Except.ok bs
    encryptOp := fun _ bs => Except.ok bs
    symEncryptOp := fun _ => Except.error (strq "boom") }

/-- A backend whose listing stream fails mid-way: one key, then an error
signal, then a further key that the error hides. -/
def backendD : Backend :=
  { startErr := fun _ => false
    stream := fun _ => [NextResp.key keyA, NextResp.errSig, NextResp.key keyB]
    keyLookup := fun _ => Except.error (strq "No such key")
    decryptOp := fun bs => Except.ok bs
    encryptOp := fun _ bs => Except.ok bs
    symEncryptOp := fun bs => Except.ok bs }

/-- A toy armoring: each byte becomes two ASCII letters (its hex nibbles over
the alphabet A..P). -/
def armorB (bs : List Nat) : List Nat := (bs.map fun x => [65 + x / 16, 65 + x % 16]).flatten

/-- Inverse of `armorB`. -/
def unarmorB : List Nat → List Nat
  | a :: b :: rest => ((a - 65) * 16 + (b - 65)) :: unarmorB rest
  | _ => []

/-- An ideal backend holding `keyA`: encryption (either kind) armors the
plaintext bytes and decryption unarmors them, so the cipher pair is exactly
inverse on byte buffers. -/
def backendRT : Backend :=
  { startErr := fun _ => false
    stream := fun _ => [NextResp.key keyA]
    keyLookup := fun fp => if fp = fpA then Except.ok keyA else Except.error (strq "not found")
    decryptOp := fun bs => Except.ok (unarmorB bs)
    encryptOp := fun _ bs => Except.ok (armorB bs)
    symEncryptOp := fun bs => Except.ok (armorB bs) }

/-! Helper lemmas. -/

/-- `beginsWith hay needle` holds exactly when `needle` is an initial segment of `hay`. -/
theorem beginsWith_iff (needle hay : QStr) :
    beginsWith hay needle = true ↔ ∃ t, hay = needle ++ t := by
  induction needle generalizing hay with
  | nil => simp [beginsWith]
  | cons b bs ih =>
    cases hay with
    | nil => simp [beginsWith]
    | cons a as =>
      simp only [beginsWith]
      by_cases hab : a = b
      · subst hab
        simp [ih]
      · simp [hab]

/-- `qcontains hay needle` holds exactly when `needle` occurs contiguously in `hay`. -/
theorem qcontains_iff (hay needle : QStr) :
    qcontains hay needle = true ↔ ∃ s t, hay = s ++ needle ++ t := by
  induction hay with
  | nil =>
    cases needle with
    | nil => simp [qcontains, beginsWith]
    | cons n ns => simp [qcontains, beginsWith]
  | cons a t ih =>
    simp only [qcontains, Bool.or_eq_true, beginsWith_iff, ih]
    constructor
    · rintro (⟨u, hu⟩ | ⟨s, u, hu⟩)
      · exact ⟨[], u, by simpa using hu⟩
      · exact ⟨a :: s, u, by simp [hu]⟩
    · rintro ⟨s, u, hu⟩
      cases s with
      | nil => exact Or.inl ⟨u, by simpa using hu⟩
      | cons x xs =>
        simp only [List.cons_append] at hu
        injection hu with h1 h2
        exact Or.inr ⟨xs, u, h2⟩

/-- The scan loop of `isPreferredKey` succeeds exactly when some list entry
contains the address. -/
theorem anyContains_iff (l : List QStr) (m : QStr) :
    anyContains l m = true ↔ ∃ a ∈ l, qcontains a m = true := by
  induction l with
  | nil => simp [anyContains]
  | cons a rest ih =>
    simp only [anyContains, Bool.or_eq_true, ih]
    constructor
    · rintro (h | ⟨x, hx, hc⟩)
      · exact ⟨a, by simp, h⟩
      · exact ⟨x, by simp [hx], hc⟩
    · rintro ⟨x, hx, hc⟩
      rcases List.mem_cons.mp hx with h | h
      · subst h; exact Or.inl hc
      · exact Or.inr ⟨x, h, hc⟩

/-- The fingerprint scan finds something exactly when a listed key matches. -/
theorem findFirstMatch_isSome (keys : List GKey) (fp : QStr) :
    (findFirstMatch keys fp).isSome = true ↔ ∃ k ∈ keys, k.primaryFingerprint = fp := by
  induction keys with
  | nil => simp [findFirstMatch]
  | cons k rest ih =>
    simp only [findFirstMatch]
    by_cases h : k.primaryFingerprint = fp
    · simp [h]
    · simp only [h, if_false, ih]
      constructor
      · rintro ⟨x, hx, hfp⟩
        exact ⟨x, by simp [hx], hfp⟩
      · rintro ⟨x, hx, hfp⟩
        rcases List.mem_cons.mp hx with rfl | hmem
        · exact absurd hfp h
        · exact ⟨x, hmem, hfp⟩

/-- If no listed key matches, the fingerprint scan comes back empty. -/
theorem findFirstMatch_none (keys : List GKey) (fp : QStr)
    (h : ∀ k ∈ keys, k.primaryFingerprint ≠ fp) : findFirstMatch keys fp = none := by
  induction keys with
  | nil => rfl
  | cons k rest ih =>
    have hk : k.primaryFingerprint ≠ fp := h k (by simp)
    simp only [findFirstMatch, hk, if_false]
    exact ih fun x hx => h x (by simp [hx])

/-- The fingerprint scan returns the first match. -/
theorem findFirstMatch_append (pre post : List GKey) (k : GKey) (fp : QStr)
    (hpre : ∀ x ∈ pre, x.primaryFingerprint ≠ fp) (hk : k.primaryFingerprint = fp) :
    findFirstMatch (pre ++ k :: post) fp = some k := by
  induction pre with
  | nil => simp [findFirstMatch, hk]
  | cons x xs ih =>
    have hx : x.primaryFingerprint ≠ fp := hpre x (by simp)
    simp only [List.cons_append, findFirstMatch, hx, if_false]
    exact ih fun y hy => hpre y (by simp [hy])

/-- The drain loop collects exactly the keys before the first error signal. -/
theorem drain_eq_keysBeforeError (rs : List NextResp) : drain rs = keysBeforeError rs := by
  induction rs with
  | nil => rfl
  | cons r rest ih =>
    cases r with
    | errSig => simp [drain, keysBeforeError, isKeyResp, List.takeWhile_cons]
    | key k =>
      simp [drain, keysBeforeError, isKeyResp, respKey, List.takeWhile_cons,
        List.filterMap_cons, ih]

/-- Draining a stream that fails after `pre` keys yields exactly `pre`. -/
theorem drain_map_key_append (pre : List GKey) (post : List NextResp) :
    drain (pre.map NextResp.key ++ NextResp.errSig :: post) = pre := by
  induction pre with
  | nil => rfl
  | cons x xs ih => simp [drain, ih]

/-! Claim theorems. -/

/-- C1 counterexample: with `symmetric=true` and a backend listing a key whose
primary fingerprint equals the given one, `encryptString` returns
`keyFound=true` — the claim says `keyFound=false` regardless, and that no key
resolution occurs on the symmetric path. -/
theorem c1_counterexample :
    (encryptString backendA (strq "hi") fpA (strq "alice@example.org") true).keyFound = true := by
  decide

/-- C1 (amended): `encryptString` with `symmetric=true` still performs key
resolution before branching — the returned `keyFound` is true exactly when
some key listed for the recipient mail has primary fingerprint equal to the
given one — while the encryption outcome itself is the symmetric branch
applied to the input text, independent of the resolved keys except for the
`keyFound` flag it carries. -/
theorem c1_symmetric_encrypt_resolves_keys (b : Backend) (text fp mail : QStr) :
    ((encryptString b text fp mail true).keyFound = true ↔
      ∃ k ∈ listKeys b mail, k.primaryFingerprint = fp)
    ∧ encryptString b text fp mail true
        = symOutcome b text ((encryptString b text fp mail true).keyFound) := by
  have he : encryptString b text fp mail true
      = symOutcome b text ((findFirstMatch (listKeys b mail) fp).isSome) := rfl
  have hkf : ∀ kf, (symOutcome b text kf).keyFound = kf := by
    intro kf
    unfold symOutcome
    cases h : b.symEncryptOp (bufferOf text) <;> simp
  have hk : (encryptString b text fp mail true).keyFound
      = (findFirstMatch (listKeys b mail) fp).isSome := by
    rw [he, hkf]
  constructor
  · rw [hk, findFirstMatch_isSome]
  · rw [hk, he]

/-- C2 counterexample: when the direct key lookup fails, the flags and the
empty payload are as claimed and the error message is non-empty, but the
message is the prefixed backend error string and does not name the given
fingerprint. -/
theorem c2_counterexample :
    decryptString backendB (strq "cipher") (strq "ABC123") =
      { resultString := [], keyFound := false, decryptionSuccess := false,
        errorMessage := strq "Error finding key: No secret key" }
    ∧ qcontains (decryptString backendB (strq "cipher") (strq "ABC123")).errorMessage
        (strq "ABC123") = false
    ∧ strq "Error finding key: No secret key" ≠ [] := by
  decide

/-- C2 (amended): if the backend's direct key-by-fingerprint lookup fails,
`decryptString` returns `keyFound=false`, `success=false`, an empty payload,
and the non-empty error message built from the fixed prefix and the backend's
error string (which need not name the fingerprint). -/
theorem c2_lookup_failure_result (b : Backend) (text fp e : QStr)
    (h : b.keyLookup fp = Except.error e) :
    decryptString b text fp =
      { resultString := [], keyFound := false, decryptionSuccess := false,
        errorMessage := strq "Error finding key: " ++ e }
    ∧ (decryptString b text fp).errorMessage ≠ [] := by
  have hd : decryptString b text fp =
      { resultString := [], keyFound := false, decryptionSuccess := false,
        errorMessage := strq "Error finding key: " ++ e } := by
    unfold decryptString
    rw [h]
  refine ⟨hd, ?_⟩
  rw [hd]
  intro hnil
  have h1 : strq "Error finding key: " = [] ∧ e = [] := List.append_eq_nil.mp hnil
  exact absurd h1.1 (by decide)

/-- C2 witness: the amended statement evaluated on a concrete backend. -/
theorem c2_witness :
    decryptString backendB (strq "x") (strq "ABC123") =
      { resultString := [], keyFound := false, decryptionSuccess := false,
        errorMessage := strq "Error finding key: " ++ strq "No secret key" }
    ∧ (decryptString backendB (strq "x") (strq "ABC123")).errorMessage ≠ [] :=
  c2_lookup_failure_result backendB (strq "x") (strq "ABC123") (strq "No secret key") rfl

/-- C3: when the backend symmetric encryption fails, the source appends the
error text to the result payload field and leaves the error-message field
empty (GPGMeWrapper.cpp line 190), contradicting the documented error model;
`success` is false. -/
theorem c3_symmetric_error_in_payload :
    encryptString backendC (strq "hi") (strq "F") (strq "r") true =
      { resultString := strq "ERROR in syymetric encryption: boom", keyFound := false,
        decryptionSuccess := false, errorMessage := [] } := by
  decide

/-- C4: the buffer handed to the backend is truncated for non-ASCII input —
its length is the UTF-16 code-unit count, not the UTF-8 byte count, so for
the one-character input U+00E9 only 1 of its 2 UTF-8 bytes is passed, as both
the decrypt and the encrypt path observably show against an identity backend
(the replacement character U+FFFD comes back instead of the input). -/
theorem c4_buffer_truncation :
    (bufferOf (strq "é")).length = 1
    ∧ (utf8Encode (strq "é")).length = 2
    ∧ (decryptString backendA (strq "é") fpA).resultString = [Char.ofNat 65533]
    ∧ (encryptString backendA (strq "é") fpA (strq "alice@example.org") false).resultString
        = [Char.ofNat 65533] := by
  decide

/-- C5: on the asymmetric path, if no listed key matches the fingerprint the
backend encrypt is still invoked, with the empty recipient selection and
`keyFound=false`; if the listing splits around a first match, exactly that
key is the single recipient and `keyFound=true`. -/
theorem c5_recipient_selection (b : Backend) (text fp mail : QStr) :
    ((∀ k ∈ listKeys b mail, k.primaryFingerprint ≠ fp) →
      encryptString b text fp mail false = encryptOutcome b [] text false)
    ∧ (∀ pre k post, listKeys b mail = pre ++ k :: post →
        k.primaryFingerprint = fp → (∀ x ∈ pre, x.primaryFingerprint ≠ fp) →
        encryptString b text fp mail false = encryptOutcome b [k] text true) := by
  constructor
  · intro h
    have hm : findFirstMatch (listKeys b mail) fp = none := findFirstMatch_none _ _ h
    unfold encryptString
    simp [hm]
  · intro pre k post hsplit hk hpre
    have hm : findFirstMatch (listKeys b mail) fp = some k := by
      rw [hsplit]
      exact findFirstMatch_append pre post k fp hpre hk
    unfold encryptString
    simp [hm]

/-- C5 witness: both halves evaluated on concrete backends — an empty key
store (zero recipients are passed) and a store whose single key matches. -/
theorem c5_witness :
    encryptString backendC (strq "hi") (strq "ZZZ") (strq "r") false
      = encryptOutcome backendC [] (strq "hi") false
    ∧ encryptString backendRT (strq "hi") fpA (strq "alice@example.org") false
      = encryptOutcome backendRT [keyA] (strq "hi") true :=
  ⟨(c5_recipient_selection backendC (strq "hi") (strq "ZZZ") (strq "r")).1 (by decide),
   (c5_recipient_selection backendRT (strq "hi") fpA (strq "alice@example.org")).2
     [] keyA [] (by decide) (by decide) (by decide)⟩

/-- C6: against an unchanged backend, the registry after `loadKeys(P)` has
exactly one KeyDetails per key of `listKeys(P)`, in order (so `getNumKeys`
equals the listing's length); an empty listing leaves the registry empty;
and the result is independent of the registry's previous contents (it is
cleared first). -/
theorem c6_loadKeys_consistency (b : Backend) (pat : QStr)
    (old1 old2 : List GPGKeyDetails) :
    getNumKeys (loadKeys b pat old1) = (listKeys b pat).length
    ∧ loadKeys b pat old1 = (listKeys b pat).map loadFromGPGMeKey
    ∧ (listKeys b pat = [] → loadKeys b pat old1 = [])
    ∧ loadKeys b pat old1 = loadKeys b pat old2 := by
  have key : ∀ old, loadKeys b pat old = (listKeys b pat).map loadFromGPGMeKey := by
    intro old
    unfold loadKeys
    by_cases h : (listKeys b pat).length = 0
    · simp [h, List.length_eq_zero.mp h]
    · simp [h]
  refine ⟨?_, key old1, ?_, ?_⟩
  · rw [key old1]
    simp [getNumKeys]
  · intro h
    rw [key old1, h]
    rfl
  · rw [key old1, key old2]

/-- C6 witness: the empty-listing case evaluated on a concrete backend with a
non-empty previous registry. -/
theorem c6_witness : loadKeys backendC (strq "") [loadFromGPGMeKey keyA] = [] :=
  (c6_loadKeys_consistency backendC (strq "") [loadFromGPGMeKey keyA] []).2.2.1 (by decide)

/-- C7: `isPreferredKey` returns true exactly when the mail address occurs as
a literal (case-sensitive) substring of at least one entry of the details'
mail-address list, and in particular returns false on an empty list. -/
theorem c7_isPreferredKey_iff (d : GPGKeyDetails) (m : QStr) :
    (isPreferredKey d m = true ↔ ∃ a ∈ d.mailAdresses, ∃ s t, a = s ++ m ++ t)
    ∧ (d.mailAdresses = [] → isPreferredKey d m = false) := by
  constructor
  · unfold isPreferredKey
    rw [anyContains_iff]
    constructor
    · rintro ⟨a, ha, hc⟩
      exact ⟨a, ha, (qcontains_iff a m).mp hc⟩
    · rintro ⟨a, ha, hs⟩
      exact ⟨a, ha, (qcontains_iff a m).mpr hs⟩
  · intro h
    unfold isPreferredKey
    rw [h]
    rfl

/-- C7 witness: a positive substring instance and the empty-list case. -/
theorem c7_witness :
    (∃ a ∈ (loadFromGPGMeKey keyA).mailAdresses, ∃ s t, a = s ++ strq "ce@ex" ++ t)
    ∧ isPreferredKey { fingerprint := fpA, mailAdresses := [] } (strq "x") = false :=
  ⟨(c7_isPreferredKey_iff (loadFromGPGMeKey keyA) (strq "ce@ex")).1.mp (by decide),
   (c7_isPreferredKey_iff { fingerprint := fpA, mailAdresses := [] } (strq "x")).2 rfl⟩

/-- C8: `listKeys` returns the empty sequence on a listing-start error;
otherwise it returns exactly the keys the stream yields before its first
error signal — in particular, when the stream fails after `pre` keys, the
partial result `pre` is returned, not discarded. -/
theorem c8_listKeys_errors (b : Backend) (pat : QStr) :
    (b.startErr pat = true → listKeys b pat = [])
    ∧ (b.startErr pat = false → listKeys b pat = keysBeforeError (b.stream pat))
    ∧ (∀ pre post, b.startErr pat = false →
        b.stream pat = pre.map NextResp.key ++ NextResp.errSig :: post →
        listKeys b pat = pre) := by
  refine ⟨?_, ?_, ?_⟩
  · intro h
    unfold listKeys
    simp [h]
  · intro h
    unfold listKeys
    simp [h, drain_eq_keysBeforeError]
  · intro pre post h hs
    unfold listKeys
    simp [h, hs, drain_map_key_append]

/-- C8 witness: a stream with one key, then an error, then a further hidden
key, returns exactly the one collected key. -/
theorem c8_witness : listKeys backendD (strq "p") = [keyA] :=
  (c8_listKeys_errors backendD (strq "p")).2.2 [keyA] [NextResp.key keyB] rfl rfl

/-- C9: the encrypt/decrypt round trip fails on the code for the non-ASCII
plaintext U+00E9 even against an ideal backend whose cipher operations are
exactly inverse, because the plaintext buffer is truncated to its UTF-16
code-unit count (see C4); the same orchestration round-trips ASCII text. -/
theorem c9_roundtrip :
    (decryptString backendRT
        (encryptString backendRT (strq "é") fpA (strq "alice@example.org") false).resultString
        fpA).resultString ≠ strq "é"
    ∧ (decryptString backendRT
        (encryptString backendRT (strq "hi") fpA (strq "alice@example.org") false).resultString
        fpA).resultString = strq "hi" := by
  decide

/-- C10: every result of `decryptString` satisfies the invariant: a true
success flag implies a found key, and a missing key implies an empty payload. -/
theorem c10_decrypt_invariant (b : Backend) (text fp : QStr) :
    ((decryptString b text fp).decryptionSuccess = true →
      (decryptString b text fp).keyFound = true)
    ∧ ((decryptString b text fp).keyFound = false →
      (decryptString b text fp).resultString = []) := by
  unfold decryptString
  cases hk : b.keyLookup fp with
  | error e => simp
  | ok k =>
    cases hd : b.decryptOp (bufferOf text) with
    | error e => simp
    | ok bytes => simp

/-- C10 witness: both implications discharged on concrete backends — one
where decryption succeeds and one where the key lookup fails. -/
theorem c10_witness :
    (decryptString backendA (strq "c") fpA).keyFound = true
    ∧ (decryptString backendB (strq "c") (strq "F")).resultString = [] :=
  ⟨(c10_decrypt_invariant backendA (strq "c") fpA).1 (by decide),
   (c10_decrypt_invariant backendB (strq "c") (strq "F")).2 (by decide)⟩

end KateGPG
